import Mathlib

/-!
Shallow embedding of the SealVault in-page provider bridge
(`src/core/src/in_page_provider.rs`) and the in-memory keychain
(`src/core/src/encryption/keychains/in_memory_keychain.rs`), with theorems
settling the specification claims about dispatch, method handlers,
notifications and the keychain operations.
-/

namespace SealVault

/-- Model of `serde_json::Value`. -/
inductive Json where
  | null : Json
  | bool (b : Bool) : Json
  | str (s : String) : Json
  | num (n : Int) : Json
  | arr (xs : List Json) : Json
  | obj (fields : List (String × Json)) : Json

/-- Modelled from the spec: "Chain identity: a closed enumeration of supported
chains with a default 'dapp chain'; each exposes a network-version string and a
canonical hexadecimal numeric id used on the wire."  The enumeration
`eth::ChainId` lives outside the provided sources (`crate::protocols::eth`);
it is a fieldless enum with explicit u64 discriminants deriving
`FromPrimitive`/`ToPrimitive`. -/
inductive ChainId where
  | ethereumMainnet : ChainId
  | ethereumGoerli : ChainId
  | polygonPoS : ChainId
  | polygonMumbai : ChainId
deriving DecidableEq, Repr

/-- `ToPrimitive::to_u64` for the chain enum: the numeric chain id. -/
def ChainId.toU64 : ChainId → Nat
  | .ethereumMainnet => 1
  | .ethereumGoerli => 5
  | .polygonPoS => 137
  | .polygonMumbai => 80001

/-- `FromPrimitive::from_u64` for the chain enum. -/
def ChainId.fromU64 : Nat → Option ChainId
  | 1 => some .ethereumMainnet
  | 5 => some .ethereumGoerli
  | 137 => some .polygonPoS
  | 80001 => some .polygonMumbai
  | _ => none

/-- Modelled from the spec: the default "dapp chain" of the closed chain
enumeration (`eth::ChainId::default_dapp_chain`). -/
def ChainId.default_dapp_chain : ChainId := .polygonPoS

/-- Modelled from the spec: "each exposes a network-version string" — the
legacy `networkVersion` is the decimal rendering of the numeric chain id. -/
def ChainId.network_version (c : ChainId) : String := toString c.toU64

/-- Minimal-length lowercase hexadecimal rendering of a natural number,
as `ethers::core::types::U64` serializes (without the `0x` prefix). -/
def natToHex (n : Nat) : String := ⟨Nat.toDigits 16 n⟩

/-- The wire string for a chain id: `0x` followed by minimal lowercase hex,
exactly the serde serialization of `ethers::core::types::U64`. -/
def ChainId.toHexStr (c : ChainId) : String := ⟨'0' :: 'x' :: Nat.toDigits 16 c.toU64⟩

/-- Value of one hexadecimal digit character, accepting both cases (the digit
semantics shared by `U64::from_str_radix(_, 16)` and `hex::decode`), computed
from the character's code point: `0`–`9` are 48–57, `A`–`F` are 65–70 and
`a`–`f` are 97–102. -/
def hexDigitVal (c : Char) : Option Nat :=
  let n := c.toNat
  if 48 ≤ n ∧ n ≤ 57 then some (n - 48)
  else if 97 ≤ n ∧ n ≤ 102 then some (n - 87)
  else if 65 ≤ n ∧ n ≤ 70 then some (n - 55)
  else none

/-- Parse a non-empty string of hexadecimal digits into a natural number
(`U64::from_str_radix(_, 16)` before the overflow check). -/
def parseHexNat (s : String) : Option Nat :=
  match s.toList with
  | [] => none
  | cs => cs.foldlM (fun acc c => (hexDigitVal c).map (fun d => acc * 16 + d)) 0

-- Error model ---------------------------------------------------------------

/-- `jsonrpsee::types::error::ErrorCode`. -/
inductive ErrorCode where
  | parseError : ErrorCode
  | invalidRequest : ErrorCode
  | methodNotFound : ErrorCode
  | invalidParams : ErrorCode
  | internalError : ErrorCode
  | serverError (code : Int) : ErrorCode
deriving DecidableEq, Repr

/-- `InPageErrorCode` from `in_page_provider.rs`, with the explicit
discriminants of the custom Ethereum provider codes. -/
inductive InPageErrorCode where
  | parseError : InPageErrorCode
  | invalidRequest : InPageErrorCode
  | methodNotFound : InPageErrorCode
  | invalidParams : InPageErrorCode
  | internalError : InPageErrorCode
  | userRejected : InPageErrorCode
  | unauthorized : InPageErrorCode
  | unsupportedMethod : InPageErrorCode
  | disconnected : InPageErrorCode
  | chainDisconnected : InPageErrorCode
deriving DecidableEq, Repr

/-- The numeric discriminants assigned in the Rust enum declaration
(`UserRejected = 4001`, …); the standard codes take the default values 0…4. -/
def InPageErrorCode.discriminant : InPageErrorCode → Int
  | .parseError => 0
  | .invalidRequest => 1
  | .methodNotFound => 2
  | .invalidParams => 3
  | .internalError => 4
  | .userRejected => 4001
  | .unauthorized => 4100
  | .unsupportedMethod => 4200
  | .disconnected => 4900
  | .chainDisconnected => 4901

/-- `impl From<InPageErrorCode> for ErrorCode`: standard codes map to their
jsonrpsee counterparts, custom codes to `ServerError(code)`. -/
def InPageErrorCode.toErrorCode : InPageErrorCode → ErrorCode
  | .parseError => .parseError
  | .invalidRequest => .invalidRequest
  | .methodNotFound => .methodNotFound
  | .invalidParams => .invalidParams
  | .internalError => .internalError
  | c => .serverError c.discriminant

/-- The crate `Error` variants that the in-page provider produces. -/
inductive Error where
  | jsonRpc (code : ErrorCode) (message : String) : Error
  | retriable (error : String) : Error
  | fatal (error : String) : Error
deriving DecidableEq, Repr

/-- `impl From<InPageErrorCode> for Error`: wraps the converted code with the
code's display string as the message. -/
def InPageErrorCode.toError (c : InPageErrorCode) (msg : String) : Error :=
  .jsonRpc c.toErrorCode msg

/-- `fn strip_0x_hex_prefix`: strip a mandatory leading `0x`, else fail with
invalid params "Message must start with 0x". -/
def strip_0x_hex (s : String) : Except Error String :=
  match s.toList with
  | '0' :: 'x' :: rest => .ok ⟨rest⟩
  | _ => .error (.jsonRpc InPageErrorCode.invalidParams.toErrorCode "Message must start with 0x")

/-- `fn parse_0x_chain_id`: strip the mandatory `0x`, parse the rest as a
hexadecimal `U64` (failing on empty digits, non-hex characters or values not
fitting 64 bits), then look the value up in the closed chain enumeration. -/
def parse_0x_chain_id (hexChainId : String) : Except Error ChainId := do
  let digits ← strip_0x_hex hexChainId
  match parseHexNat digits with
  | none => .error (.jsonRpc InPageErrorCode.invalidParams.toErrorCode "Invalid U64")
  | some v =>
    if v < 2 ^ 64 then
      match ChainId.fromU64 v with
      | some c => .ok c
      | none =>
        .error (.jsonRpc InPageErrorCode.invalidParams.toErrorCode "Unsupported chain id")
    else .error (.jsonRpc InPageErrorCode.invalidParams.toErrorCode "Invalid U64")

/-- `fn chain_id_to_hex_str_json`: the chain id as the JSON serialization of
`ethers::core::types::U64`, a `0x`-prefixed hex string. -/
def chain_id_to_hex_str_json (c : ChainId) : Json := .str c.toHexStr

example : parse_0x_chain_id (ChainId.toHexStr .polygonMumbai) = .ok .polygonMumbai := rfl

-- In-memory keychain --------------------------------------------------------

namespace Keychain

/-- Opaque secret key bytes (`encryption::key_material::KeyMaterial`). -/
structure KeyMaterial where
  bytes : List Nat
deriving DecidableEq, Repr

/-- `KeyEncryptionKey::new(name, key_material)`; `into_keychain` returns the
two fields. -/
structure KeyEncryptionKey where
  name : String
  keyMaterial : KeyMaterial
deriving DecidableEq, Repr

/-- The `HashMap<String, KeyMaterial>` held by `InMemoryKeychain` behind its
`RwLock`, modelled as an association list with at most one binding per name
(the vacancy check in `put_local_unlocked` maintains uniqueness). -/
abbrev Data := List (String × KeyMaterial)

/-- `HashMap::get` on the model. -/
def lookupName (d : Data) (name : String) : Option KeyMaterial :=
  (d.find? (fun e => e.1 == name)).map (fun e => e.2)

/-- `HashMap::remove(name)` on the model. -/
def removeName (d : Data) (name : String) : Data :=
  d.filter (fun e => e.1 != name)

/-- `InMemoryKeychain::get`: clone the stored material for `name` or fail with
a fatal "not found" error.  (The read lock is invisible to the sequential
model.) -/
def get (d : Data) (name : String) : Except Error KeyEncryptionKey :=
  match lookupName d name with
  | some km => .ok ⟨name, km⟩
  | none => .error (.fatal ("Key '" ++ name ++ "' not found"))

/-- `InMemoryKeychain::put_local_unlocked`: insert only into a vacant entry,
otherwise fail with a fatal error and leave the map unchanged.  The pair is
(result, map after the call). -/
def put_local_unlocked (d : Data) (key : KeyEncryptionKey) : Except Error Unit × Data :=
  match lookupName d key.name with
  | some _ => (.error (.fatal "A keychain item by this name already exists"), d)
  | none => (.ok (), d ++ [(key.name, key.keyMaterial)])

/-- Modelled from the spec: `soft_delete_rename` from
`keychains/keychain.rs` is not among the provided sources; per the claims'
wording it maps a keychain item name to a distinct "soft-deleted" name. -/
def soft_delete_rename (name : String) : String := "deleted-" ++ name

/-- `InMemoryKeychain::soft_delete`: fetch the key, store its material under
the renamed name (failing and leaving the map unchanged when the renamed name
is taken), then remove the original entry. -/
def soft_delete (d : Data) (name : String) : Except Error Unit × Data :=
  match get d name with
  | .error e => (.error e, d)
  | .ok key =>
    let newName := soft_delete_rename name
    match put_local_unlocked d ⟨newName, key.keyMaterial⟩ with
    | (.error e, d1) => (.error e, d1)
    | (.ok _, d1) => (.ok (), removeName d1 name)

end Keychain

-- Provider data model --------------------------------------------------------

/-- `m::LocalDappSession`: binds one account to one dapp on one chain with a
bound address. -/
structure LocalDappSession where
  address : String
  addressId : String
  chainId : ChainId
  accountId : String
  dappId : String
  lastUsedAt : Nat
deriving DecidableEq, Repr

/-- One row of the address table: an asymmetric key's address on one chain.
Modelled from the spec: "Address binding: associates one underlying
asymmetric key with one chain (the same key can have a distinct on-chain
address per chain)". -/
structure AddressRec where
  addressId : String
  keyId : String
  accountId : String
  dappId : String
  chainId : ChainId
  address : String
deriving DecidableEq, Repr

/-- The persistent state the in-page provider reads and writes, modelled from
the spec's data model: dapp records (identifier to id), dapps added per
account, chain-scoped addresses and local dapp sessions, plus the active
account setting (`m::LocalSettings::fetch_active_account_id`). -/
structure DbState where
  activeAccountId : String
  dapps : List (String × String)
  accountDapps : List (String × String)
  addresses : List AddressRec
  sessions : List LocalDappSession
deriving DecidableEq, Repr

/-- `eth::SigningKey`: the opaque signing credential fetched by address id;
only its chain id is observable to this component. -/
structure SigningKey where
  chainId : ChainId
  keyId : String
deriving DecidableEq, Repr

/-- `DappApprovalParams` passed to `CoreInPageCallbackI::approve_dapp`. -/
structure DappApprovalParams where
  accountId : String
  dappIdentifier : String
  favicon : Option (List Nat)
deriving DecidableEq, Repr

/-- `ProviderEvent` (wire tags are camelCase). -/
inductive ProviderEvent where
  | connect : ProviderEvent
  | chainChanged : ProviderEvent
  | accountsChanged : ProviderEvent
  | networkChanged : ProviderEvent
  | sealVaultConnect : ProviderEvent
deriving DecidableEq, Repr

/-- `ethers::core::types::TransactionRequest`, restricted to the fields the
bridge observes (legacy transaction; every field optional). -/
structure TransactionRequest where
  fromAddr : Option Nat := none
  toAddr : Option Nat := none
  gas : Option Nat := none
  gasPrice : Option Nat := none
  value : Option Nat := none
  callData : Option (List Nat) := none
  nonce : Option Nat := none
deriving DecidableEq, Repr

/-- Observable interactions with the collaborators, in emission order:
notifications pushed through `CoreInPageCallbackI::notify`, favicon fetches,
approval requests, signing operations and remote provider calls. -/
inductive Effect where
  | notify (event : ProviderEvent) (data : Json) : Effect
  | fetchFavicon (url : String) : Effect
  | approveDappRequest (params : DappApprovalParams) : Effect
  | signMessage (key : SigningKey) (message : List Nat) : Effect
  | sendTransaction (key : SigningKey) (tx : TransactionRequest) : Effect
  | proxyRequest (chainId : ChainId) (method : String) (params : Option Json) : Effect
  | transferAllotment (accountId : String) (chainId : ChainId) (toAddress : String) : Effect

/-- The external collaborators of `InPageProvider` (request context, key
storage, signer, RPC manager, favicon fetcher, clock), modelled as pure
capabilities per the spec's interface section. -/
structure Provider where
  url : String
  dappIdentifierOf : String → String
  approve_dapp : DappApprovalParams → Bool
  favicon : Option (List Nat)
  signingKeyOf : String → SigningKey
  personalSignFn : SigningKey → List Nat → String
  sendTransactionFn : SigningKey → TransactionRequest → Except Error Json
  proxyFn : ChainId → String → Option Json → Except Error Json
  keccakFn : List Nat → List Nat
  freshAddressOf : String → String
  now : Nat

/-- An inbound JSON-RPC request as `dispatch` sees it (the id only matters to
the envelope layer). -/
structure Request where
  method : String
  params : Option Json

/-- Result, persistent state and emitted effects of one dispatch step. -/
structure StepOut where
  result : Except Error Json
  db : DbState
  effects : List Effect

-- JSON parameter parsing (jsonrpsee `Params` and serde deserialization) ------

/-- `jsonrpsee` invalid-params call error (`CallError::InvalidParams`),
as converted into the crate `Error` by `From<CallError>`. -/
def invalidParamsError : Error :=
  .jsonRpc InPageErrorCode.invalidParams.toErrorCode "Invalid params"

/-- The element list behind `Params::sequence` (params must be a JSON
array). -/
def paramsList (p : Option Json) : Option (List Json) :=
  match p with
  | some (.arr xs) => some xs
  | _ => none

/-- `ParamsSequence::next::<T>`: take the next element and deserialize it,
failing with invalid params when the sequence is exhausted, absent or the
element does not deserialize. -/
def seqNext (xs : Option (List Json)) (parse : Json → Option α) :
    Except Error (α × Option (List Json)) :=
  match xs with
  | some (x :: rest) =>
    match parse x with
    | some a => .ok (a, some rest)
    | none => .error invalidParamsError
  | _ => .error invalidParamsError

/-- `ParamsSequence::optional_next::<T>`: like `next` but an exhausted
sequence yields `none` instead of an error. -/
def seqOptNext (xs : Option (List Json)) (parse : Json → Option α) :
    Except Error (Option α × Option (List Json)) :=
  match xs with
  | some (x :: rest) =>
    match parse x with
    | some a => .ok (some a, some rest)
    | none => .error invalidParamsError
  | _ => .ok (none, xs)

/-- `Params::one::<T>`: the params must be a one-element array whose single
element deserializes to `T`. -/
def paramsOne (p : Option Json) (parse : Json → Option α) : Option α :=
  match p with
  | some (.arr [x]) => parse x
  | _ => none

/-- serde: deserialize a JSON string. -/
def asString : Json → Option String
  | .str s => some s
  | _ => none

/-- Field lookup in a JSON object. -/
def objLookup (fields : List (String × Json)) (key : String) : Option Json :=
  (fields.find? (fun f => f.1 == key)).map (fun f => f.2)

/-- Fold hexadecimal digit characters into a value, failing on a non-digit. -/
def hexListVal (cs : List Char) : Option Nat :=
  cs.foldlM (fun acc c => (hexDigitVal c).map (fun d => acc * 16 + d)) 0

/-- `hex::decode` on a digit list: pairs of hex digits to bytes, failing on
odd length or non-digits. -/
def hexBytes : List Char → Option (List Nat)
  | [] => some []
  | c1 :: c2 :: rest => do
    let hi ← hexDigitVal c1
    let lo ← hexDigitVal c2
    let bs ← hexBytes rest
    pure ((hi * 16 + lo) :: bs)
  | [_] => none

/-- `fn decode_0x_hex_prefix`: strip the mandatory `0x` then hex-decode,
failing with invalid params "Invalid hex" on bad digits. -/
def decode_0x_hex (s : String) : Except Error (List Nat) := do
  let stripped ← strip_0x_hex s
  match hexBytes stripped.toList with
  | some bs => .ok bs
  | none => .error (.jsonRpc InPageErrorCode.invalidParams.toErrorCode "Invalid hex")

/-- serde for `ethers::core::types::Address` (H160): a `0x`-prefixed string of
exactly 40 hex digits, as a 160-bit value. -/
def parseAddressHex (s : String) : Option Nat :=
  match s.toList with
  | '0' :: 'x' :: rest =>
    if rest.length = 40 then hexListVal rest else none
  | _ => none

/-- serde for `ethers` quantities (U256/U64): a `0x`-prefixed hex string or a
non-negative JSON number. -/
def parseQuantity : Json → Option Nat
  | .str s =>
    match s.toList with
    | '0' :: 'x' :: rest =>
      match rest with
      | [] => none
      | _ => hexListVal rest
    | _ => none
  | .num n => if 0 ≤ n then some n.toNat else none
  | _ => none

/-- serde helper for an optional struct field. -/
def parseOptField (fields : List (String × Json)) (key : String)
    (parse : Json → Option α) : Option (Option α) :=
  match objLookup fields key with
  | none => some none
  | some j => (parse j).map some

/-- `hex::decode` of a `0x`-prefixed string, as serde for `ethers` byte
fields. -/
def parse0xBytes (s : String) : Option (List Nat) :=
  match s.toList with
  | '0' :: 'x' :: rest => hexBytes rest
  | _ => none

/-- serde for `TransactionRequest` (camelCase field names; unknown fields
are ignored; every modelled field optional). -/
def parseTransactionRequest : Json → Option TransactionRequest
  | .obj fields => do
    let fromA ← parseOptField fields "from" (fun j => (asString j).bind parseAddressHex)
    let toA ← parseOptField fields "to" (fun j => (asString j).bind parseAddressHex)
    let gasA ← parseOptField fields "gas" parseQuantity
    let gasPriceA ← parseOptField fields "gasPrice" parseQuantity
    let valueA ← parseOptField fields "value" parseQuantity
    let dataA ← parseOptField fields "data" (fun j => (asString j).bind parse0xBytes)
    let nonceA ← parseOptField fields "nonce" parseQuantity
    pure { fromAddr := fromA, toAddr := toA, gas := gasA, gasPrice := gasPriceA,
           value := valueA, callData := dataA, nonce := nonceA }
  | _ => none

/-- serde for `AddEthereumChainParameter` / `SwitchEthereumChainParameter`:
an object whose `chainId` field is a string (the other fields of the
MetaMask parameter are not observed). -/
def parseChainIdParam : Json → Option String
  | .obj fields => (objLookup fields "chainId").bind asString
  | _ => none

/-- Lowercase hex string of a byte list (`hex::encode`). -/
def hexOfBytes (bs : List Nat) : String :=
  ⟨(bs.map (fun b => [Nat.digitChar (b / 16 % 16), Nat.digitChar (b % 16)])).flatten⟩

-- Notification emitter -------------------------------------------------------

/-- The display message of a jsonrpsee error code, used by
`From<InPageErrorCode> for Error` as the message of the wrapped code. -/
def ErrorCode.message : ErrorCode → String
  | .parseError => "Parse error"
  | .invalidRequest => "Invalid request"
  | .methodNotFound => "Method not found"
  | .invalidParams => "Invalid params"
  | .internalError => "Internal error"
  | .serverError _ => "Server error"

/-- `InPageErrorCode::into::<Error>()`: convert to the jsonrpsee code and pair
it with that code's display message. -/
def InPageErrorCode.intoError (c : InPageErrorCode) : Error :=
  .jsonRpc c.toErrorCode c.toErrorCode.message

/-- `fn notify_chain_changed`: a `chainChanged` message carrying the hex chain
id, then a `networkChanged` message carrying the network version string,
in that order. -/
def notify_chain_changed (chainId : ChainId) : List Effect :=
  [ .notify .chainChanged (chain_id_to_hex_str_json chainId),
    .notify .networkChanged (.str chainId.network_version) ]

/-- `fn notify_connect`: the custom `sealVaultConnect` message with chain id,
network version and selected address. -/
def notify_connect (chainId : ChainId) (selectedAddress : String) : List Effect :=
  [ .notify .sealVaultConnect (.obj
      [ ("chainId", chain_id_to_hex_str_json chainId),
        ("networkVersion", .str chainId.network_version),
        ("selectedAddress", .str selectedAddress) ]) ]

-- Session resolver and approval flow -----------------------------------------

/-- Modelled from the spec (§4.2): `m::LocalDappSession::create_eth_session_if_not_exists`
is not among the provided sources.  Return the existing session for
(dapp, account) or create one on the default dapp chain bound to the dapp's
address record (the "dapp added on another device" case). -/
def create_eth_session_if_not_exists (p : Provider) (st : DbState)
    (dappId accountId : String) : LocalDappSession × DbState :=
  match st.sessions.find? (fun s => s.dappId == dappId && s.accountId == accountId) with
  | some s => (s, st)
  | none =>
    let chainId := ChainId.default_dapp_chain
    let addrRec := st.addresses.find?
      (fun a => a.dappId == dappId && a.accountId == accountId && a.chainId == chainId)
    let address := match addrRec with
      | some a => a.address
      | none => p.freshAddressOf dappId
    let addressId := match addrRec with
      | some a => a.addressId
      | none => dappId ++ "@" ++ toString chainId.toU64
    let session : LocalDappSession :=
      { address := address, addressId := addressId, chainId := chainId,
        accountId := accountId, dappId := dappId, lastUsedAt := p.now }
    (session, { st with sessions := st.sessions ++ [session] })

/-- `fn fetch_session_for_approved_dapp`, one deferred transaction: fetch the
active account, look the dapp up for that account by its normalized
identifier, and when it was added return its session (creating the local
session row when only the dapp record exists); no dapp record means no
session, not an error.  The database reads are modelled from the spec
(§4.2 Session Resolver). -/
def fetch_session_for_approved_dapp (p : Provider) (st : DbState) :
    Option LocalDappSession × DbState :=
  let accountId := st.activeAccountId
  let identifier := p.dappIdentifierOf p.url
  let maybeDappId : Option String :=
    (st.dapps.find? (fun e => e.1 == identifier)).bind (fun e =>
      if st.accountDapps.contains (accountId, e.2) then some e.2 else none)
  match maybeDappId with
  | some dappId =>
    let (session, st1) := create_eth_session_if_not_exists p st dappId accountId
    (some session, st1)
  | none => (none, st)

/-- `fn add_new_dapp` plus `fn transfer_default_dapp_allotment`: inside one
transaction create the dapp record if missing, a fresh key and address on the
default dapp chain for the approving account, and the session row; then spawn
the background allotment transfer.  The database writes are modelled from the
spec (§4.3 steps 6–7). -/
def add_new_dapp (p : Provider) (st : DbState) (dappApproval : DappApprovalParams) :
    LocalDappSession × DbState × List Effect :=
  let chainId := ChainId.default_dapp_chain
  let identifier := p.dappIdentifierOf p.url
  let (dappId, dapps1) :=
    match st.dapps.find? (fun e => e.1 == identifier) with
    | some e => (e.2, st.dapps)
    | none => (identifier, st.dapps ++ [(identifier, identifier)])
  let keyId := dappApproval.accountId ++ ":" ++ dappId
  let addressId := keyId ++ "@" ++ toString chainId.toU64
  let address := p.freshAddressOf dappId
  let addrRec : AddressRec :=
    { addressId := addressId, keyId := keyId, accountId := dappApproval.accountId,
      dappId := dappId, chainId := chainId, address := address }
  let session : LocalDappSession :=
    { address := address, addressId := addressId, chainId := chainId,
      accountId := dappApproval.accountId, dappId := dappId, lastUsedAt := p.now }
  let st1 : DbState :=
    { st with dapps := dapps1,
              accountDapps := st.accountDapps ++ [(dappApproval.accountId, dappId)],
              addresses := st.addresses ++ [addrRec],
              sessions := st.sessions ++ [session] }
  (session, st1, [.transferAllotment dappApproval.accountId chainId address])

/-- `fn request_add_new_dapp`: fetch the favicon, read the active account id,
build the approval descriptor and ask the human-approval collaborator; on
approval add the new dapp, otherwise report "no session" without touching any
state. -/
def request_add_new_dapp (p : Provider) (st : DbState) :
    Option LocalDappSession × DbState × List Effect :=
  let accountId := st.activeAccountId
  let dappIdentifier := p.dappIdentifierOf p.url
  let dappApproval : DappApprovalParams :=
    { accountId := accountId, dappIdentifier := dappIdentifier, favicon := p.favicon }
  let asked : List Effect := [.fetchFavicon p.url, .approveDappRequest dappApproval]
  if p.approve_dapp dappApproval then
    let (session, st1, effs) := add_new_dapp p st dappApproval
    (some session, st1, asked ++ effs)
  else
    (none, st, asked)

/-- `session.update_last_used_at`: touch the session row's timestamp. -/
def update_last_used_at (p : Provider) (st : DbState)
    (session : LocalDappSession) : DbState :=
  { st with sessions := st.sessions.map (fun s =>
      if s.dappId == session.dappId && s.accountId == session.accountId then
        { s with lastUsedAt := p.now }
      else s) }

-- Method handlers ------------------------------------------------------------

/-- `fn eth_request_accounts`: reuse the session when one exists, otherwise run
the approval flow; a decline is "User Rejected"; on success touch the
last-used timestamp, emit the connect notification and return the bound
address as a one-element array. -/
def eth_request_accounts (p : Provider) (st : DbState)
    (maybeSession : Option LocalDappSession) : StepOut :=
  match maybeSession with
  | some session =>
    let st1 := update_last_used_at p st session
    ⟨.ok (.arr [.str session.address]), st1,
      notify_connect session.chainId session.address⟩
  | none =>
    match request_add_new_dapp p st with
    | (some session, st1, effs) =>
      let st2 := update_last_used_at p st1 session
      ⟨.ok (.arr [.str session.address]), st2,
        effs ++ notify_connect session.chainId session.address⟩
    | (none, st1, effs) =>
      ⟨.error InPageErrorCode.userRejected.intoError, st1, effs⟩

/-- `fn eth_chain_id`: the session's chain id as a hex-encoded `U64`. -/
def eth_chain_id (st : DbState) (session : LocalDappSession) : StepOut :=
  ⟨.ok (chain_id_to_hex_str_json session.chainId), st, []⟩

/-- `fn eth_send_transaction`: fetch the session's signing key, parse the
single transaction parameter (any parse failure is invalid params), clear the
client-supplied nonce, and forward to the chain-specific send path. -/
def eth_send_transaction (p : Provider) (st : DbState) (params : Option Json)
    (session : LocalDappSession) : StepOut :=
  let signingKey := p.signingKeyOf session.addressId
  match paramsOne params parseTransactionRequest with
  | none => ⟨.error InPageErrorCode.invalidParams.intoError, st, []⟩
  | some tx0 =>
    let tx : TransactionRequest := { tx0 with nonce := none }
    ⟨p.sendTransactionFn signingKey tx, st, [.sendTransaction signingKey tx]⟩

/-- `fn personal_sign`: decode the `0x`-hex message, parse the session's bound
address (valid by database invariant; an invalid stored address would panic),
require the second parameter to equal it, accept and ignore an optional
password, then sign. -/
def personal_sign (p : Provider) (st : DbState) (params : Option Json)
    (session : LocalDappSession) : StepOut :=
  match seqNext (paramsList params) asString with
  | .error e => ⟨.error e, st, []⟩
  | .ok (message, seq1) =>
    match decode_0x_hex message with
    | .error e => ⟨.error e, st, []⟩
    | .ok msgBytes =>
      match parseAddressHex session.address with
      | none => ⟨.error (.fatal "panic: address from database is valid"), st, []⟩
      | some requestAddress =>
        match seqNext seq1 (fun j => (asString j).bind parseAddressHex) with
        | .error e => ⟨.error e, st, []⟩
        | .ok (addressArg, seq2) =>
          if addressArg ≠ requestAddress then
            ⟨.error (.jsonRpc InPageErrorCode.invalidParams.toErrorCode "Invalid address"),
              st, []⟩
          else
            match seqOptNext seq2 asString with
            | .error e => ⟨.error e, st, []⟩
            | .ok (_password, _) =>
              let signingKey := p.signingKeyOf session.addressId
              let signature := p.personalSignFn signingKey msgBytes
              ⟨.ok (.str signature), st, [.signMessage signingKey msgBytes]⟩

/-- `fn wallet_add_ethereum_chain`: parse the chain parameter; a parseable
chain id is already supported, so adding is a no-op returning null, anything
else is the parse error. -/
def wallet_add_ethereum_chain (st : DbState) (params : Option Json) : StepOut :=
  match seqNext (paramsList params) parseChainIdParam with
  | .error e => ⟨.error e, st, []⟩
  | .ok (chainIdStr, _) =>
    match parse_0x_chain_id chainIdStr with
    | .error e => ⟨.error e, st, []⟩
    | .ok _ => ⟨.ok .null, st, []⟩

/-- `m::Address::fetch_or_create_for_eth_chain`: the key's address row on the
target chain, creating it when missing (same key, same on-chain address).
Modelled from the spec: "resolved or created on demand when a session's chain
changes, never duplicated for the same (key, chain) pair". -/
def fetch_or_create_for_eth_chain (st : DbState) (tmpl : AddressRec)
    (newChainId : ChainId) : AddressRec × DbState :=
  match st.addresses.find? (fun a => a.keyId == tmpl.keyId && a.chainId == newChainId) with
  | some a => (a, st)
  | none =>
    let newRec : AddressRec :=
      { addressId := tmpl.addressId ++ "@" ++ toString newChainId.toU64,
        keyId := tmpl.keyId, accountId := tmpl.accountId, dappId := tmpl.dappId,
        chainId := newChainId, address := tmpl.address }
    (newRec, { st with addresses := st.addresses ++ [newRec] })

/-- `session.update_session_address`: rebind the session row to the given
address record. -/
def update_session_address (st : DbState) (session : LocalDappSession)
    (newRec : AddressRec) : DbState :=
  { st with sessions := st.sessions.map (fun s =>
      if s.dappId == session.dappId && s.accountId == session.accountId then
        { s with addressId := newRec.addressId, address := newRec.address,
                 chainId := newRec.chainId }
      else s) }

/-- `fn wallet_switch_ethereum_chain`: parse and validate the target chain,
rebind the session to the key's address on that chain inside one transaction,
then emit the chain-changed notifications. -/
def wallet_switch_ethereum_chain (p : Provider) (st : DbState) (params : Option Json)
    (session : LocalDappSession) : StepOut :=
  match seqNext (paramsList params) parseChainIdParam with
  | .error e => ⟨.error e, st, []⟩
  | .ok (chainIdStr, _) =>
    match parse_0x_chain_id chainIdStr with
    | .error e => ⟨.error e, st, []⟩
    | .ok newChainId =>
      match st.addresses.find? (fun a => a.addressId == session.addressId) with
      | none => ⟨.error (.fatal "address of session not found"), st, []⟩
      | some addrRec =>
        let (newRec, st1) := fetch_or_create_for_eth_chain st addrRec newChainId
        let st2 := update_session_address st1 session newRec
        ⟨.ok .null, st2, notify_chain_changed newChainId⟩

/-- `fn web3_client_version`: the fixed identifier string. -/
def web3_client_version (st : DbState) : StepOut :=
  ⟨.ok (.str "SealVault"), st, []⟩

/-- `fn web3_sha3`: decode the `0x`-hex message and return its Keccak-256
hash, `0x`-hex-encoded. -/
def web3_sha3 (p : Provider) (st : DbState) (params : Option Json) : StepOut :=
  match seqNext (paramsList params) asString with
  | .error e => ⟨.error e, st, []⟩
  | .ok (message, _) =>
    match decode_0x_hex message with
    | .error e => ⟨.error e, st, []⟩
    | .ok msgBytes =>
      ⟨.ok (.str ("0x" ++ hexOfBytes (p.keccakFn msgBytes))), st, []⟩

/-- `PROXIED_RPC_METHODS`: the fixed allow-list of proxyable read-only chain
query methods. -/
def PROXIED_RPC_METHODS : List String :=
  [ "net_listening", "net_peerCount", "net_version",
    "eth_blockNumber", "eth_call", "eth_chainId", "eth_estimateGas",
    "eth_gasPrice", "eth_getBalance", "eth_getBlockByHash",
    "eth_getBlockByNumber", "eth_getBlockTransactionCountByHash",
    "eth_getBlockTransactionCountByNumber", "eth_getCode",
    "eth_getFilterChanges", "eth_getFilterLogs",
    "eth_getRawTransactionByHash", "eth_getRawTransactionByBlockHashAndIndex",
    "eth_getRawTransactionByBlockNumberAndIndex", "eth_getLogs",
    "eth_getStorageAt", "eth_getTransactionByBlockHashAndIndex",
    "eth_getTransactionByBlockNumberAndIndex", "eth_getTransactionByHash",
    "eth_getTransactionCount", "eth_getTransactionReceipt",
    "eth_getUncleByBlockHashAndIndex", "eth_getUncleByBlockNumberAndIndex",
    "eth_getUncleCountByBlockHash", "eth_getUncleCountByBlockNumber",
    "eth_getProof", "eth_newBlockFilter", "eth_newFilter",
    "eth_newPendingTransactionFilter", "eth_protocolVersion",
    "eth_sendRawTransaction", "eth_syncing", "eth_uninstallFilter" ]

/-- `fn proxy_method`: methods outside the allow-list fail with 4200
(Unsupported Method) and are never forwarded; allow-listed methods are proxied
verbatim to the remote provider selected by the session's chain id. -/
def proxy_method (p : Provider) (st : DbState) (method : String)
    (params : Option Json) (session : LocalDappSession) : StepOut :=
  if ¬ PROXIED_RPC_METHODS.contains method then
    ⟨.error (.jsonRpc InPageErrorCode.unsupportedMethod.toErrorCode
        ("This method is not supported: '" ++ method ++ "'")), st, []⟩
  else
    ⟨p.proxyFn session.chainId method params, st,
      [.proxyRequest session.chainId method params]⟩

-- Dispatcher -----------------------------------------------------------------

/-- `fn dispatch_authorized_methods`: the per-method routing once a session
exists, defaulting to the allow-listed proxy. -/
def dispatch_authorized_methods (p : Provider) (st : DbState) (req : Request)
    (session : LocalDappSession) : StepOut :=
  match req.method with
  | "eth_chainId" => eth_chain_id st session
  | "eth_sendTransaction" => eth_send_transaction p st req.params session
  | "personal_sign" => personal_sign p st req.params session
  | "wallet_addEthereumChain" => wallet_add_ethereum_chain st req.params
  | "wallet_switchEthereumChain" => wallet_switch_ethereum_chain p st req.params session
  | "web3_clientVersion" => web3_client_version st
  | "web3_sha3" => web3_sha3 p st req.params
  | method => proxy_method p st method req.params session

/-- `fn dispatch`: resolve the session first; the bootstrap methods
`eth_requestAccounts`/`eth_accounts` are reachable either way, every other
method requires the session, else Unauthorized. -/
def dispatch (p : Provider) (st : DbState) (req : Request) : StepOut :=
  match fetch_session_for_approved_dapp p st with
  | (maybeSession, st0) =>
    match req.method with
    | "eth_requestAccounts" | "eth_accounts" =>
      eth_request_accounts p st0 maybeSession
    | _ =>
      match maybeSession with
      | some session => dispatch_authorized_methods p st0 req session
      | none => ⟨.error InPageErrorCode.unauthorized.intoError, st0, []⟩

-- Concrete fixtures for witnesses and counterexamples ------------------------

/-- A deterministic instantiation of the collaborators, declining every
approval (as `CoreInPageCallbackMock` instantiated with a declining user). -/
def mockProvider : Provider :=
  { url := "https://example.com"
    dappIdentifierOf := fun u => u
    approve_dapp := fun _ => false
    favicon := none
    signingKeyOf := fun a => ⟨ChainId.default_dapp_chain, a⟩
    personalSignFn := fun _ bs => "0xsig" ++ hexOfBytes bs
    sendTransactionFn := fun _ _ => .ok (.str "0xtxhash")
    proxyFn := fun _ _ _ => .ok .null
    keccakFn := fun bs => bs
    freshAddressOf := fun d => "0xaddr-" ++ d
    now := 7 }

/-- The mock collaborators with an approving user
(`CoreInPageCallbackMock::approve_dapp` returns true). -/
def mockProviderApproving : Provider :=
  { mockProvider with approve_dapp := fun _ => true }

/-- An empty database with one active account and no approved dapp. -/
def emptyDb : DbState :=
  { activeAccountId := "acct1", dapps := [], accountDapps := [],
    addresses := [], sessions := [] }

/-- A session of the active account for the mock provider's origin. -/
def exSession : LocalDappSession :=
  { address := "0x00a329c0648769a73afac7f9381e08fb43dbea72"
    addressId := "addr1", chainId := .polygonPoS, accountId := "acct1"
    dappId := "dapp1", lastUsedAt := 0 }

/-- The address record backing `exSession`. -/
def exAddressRec : AddressRec :=
  { addressId := "addr1", keyId := "key1", accountId := "acct1"
    dappId := "dapp1", chainId := .polygonPoS
    address := exSession.address }

/-- A database in which the mock provider's origin has an approved dapp with
an existing session. -/
def sessionDb : DbState :=
  { activeAccountId := "acct1"
    dapps := [("https://example.com", "dapp1")]
    accountDapps := [("acct1", "dapp1")]
    addresses := [exAddressRec]
    sessions := [exSession] }

/-- Parameters of a `personal_sign` call: hex message, address and an
optional password, as the JSON params array. -/
def mkPersonalSignParams (msg addrStr : String) (pw : Option String) : Option Json :=
  some (.arr ([Json.str msg, Json.str addrStr] ++
    (match pw with | some w => [Json.str w] | none => [])))

example : fetch_session_for_approved_dapp mockProvider emptyDb = (none, emptyDb) := rfl

example : fetch_session_for_approved_dapp mockProvider sessionDb = (some exSession, sessionDb) := rfl

example :
    dispatch mockProvider emptyDb ⟨"web3_clientVersion", none⟩ =
      ⟨.error (.jsonRpc (.serverError 4100) "Server error"), emptyDb, []⟩ := rfl

example :
    dispatch mockProvider sessionDb ⟨"web3_clientVersion", none⟩ =
      ⟨.ok (.str "SealVault"), sessionDb, []⟩ := rfl

-- Keychain lemmas ------------------------------------------------------------

namespace Keychain

theorem lookupName_append (d1 d2 : Data) (n : String) :
    lookupName (d1 ++ d2) n = ((lookupName d1 n).or (lookupName d2 n)) := by
  unfold lookupName
  rw [List.find?_append]
  cases List.find? (fun e => e.1 == n) d1 <;> simp

theorem lookupName_singleton_self (n : String) (km : KeyMaterial) :
    lookupName [(n, km)] n = some km := by
  simp [lookupName, List.find?]

theorem lookupName_cons_of_pos (e : String × KeyMaterial) (d : Data) (m : String)
    (h : e.1 = m) : lookupName (e :: d) m = some e.2 := by
  unfold lookupName
  rw [List.find?_cons_of_pos _ (by simp [h])]
  rfl

theorem lookupName_cons_of_neg (e : String × KeyMaterial) (d : Data) (m : String)
    (h : e.1 ≠ m) : lookupName (e :: d) m = lookupName d m := by
  unfold lookupName
  rw [List.find?_cons_of_neg _ (by simp [h])]

theorem lookupName_singleton_ne (n m : String) (km : KeyMaterial) (h : m ≠ n) :
    lookupName [(n, km)] m = none := by
  rw [lookupName_cons_of_neg _ _ _ (fun hx => h (hx.symm))]
  rfl

theorem lookupName_removeName_self (d : Data) (n : String) :
    lookupName (removeName d n) n = none := by
  induction d with
  | nil => rfl
  | cons e rest ih =>
    rw [removeName, List.filter_cons]
    by_cases he : e.1 = n
    · rw [if_neg (by simp [he])]
      exact ih
    · rw [if_pos (by simp [bne_iff_ne, he])]
      rw [lookupName_cons_of_neg _ _ _ he]
      exact ih

theorem lookupName_removeName_ne (d : Data) (n m : String) (h : m ≠ n) :
    lookupName (removeName d n) m = lookupName d m := by
  induction d with
  | nil => rfl
  | cons e rest ih =>
    rw [removeName, List.filter_cons]
    by_cases he : e.1 = n
    · rw [if_neg (by simp [he])]
      have hrw : lookupName (List.filter (fun e => e.1 != n) rest) m = lookupName rest m := ih
      rw [hrw, lookupName_cons_of_neg _ _ _ (by rw [he]; exact fun hx => h hx.symm)]
    · rw [if_pos (by simp [bne_iff_ne, he])]
      by_cases hm : e.1 = m
      · rw [lookupName_cons_of_pos _ _ _ hm, lookupName_cons_of_pos _ _ _ hm]
      · rw [lookupName_cons_of_neg _ _ _ hm, lookupName_cons_of_neg _ _ _ hm]
        exact ih

theorem soft_delete_rename_ne (n : String) : soft_delete_rename n ≠ n := by
  intro h
  have hlen := congrArg String.length h
  rw [soft_delete_rename, String.length_append] at hlen
  have h8 : ("deleted-" : String).length = 8 := rfl
  omega

end Keychain

-- Dispatcher lemmas ----------------------------------------------------------

theorem fetch_none_eq (p : Provider) (st : DbState)
    (h : (fetch_session_for_approved_dapp p st).1 = none) :
    fetch_session_for_approved_dapp p st = (none, st) := by
  unfold fetch_session_for_approved_dapp at h ⊢
  dsimp only at h ⊢
  split at h
  next => simp at h
  next => rfl

theorem unauthorized_aux (p : Provider) (st : DbState) (req : Request)
    (h1 : req.method ≠ "eth_requestAccounts") (h2 : req.method ≠ "eth_accounts")
    (hs : (fetch_session_for_approved_dapp p st).1 = none) :
    dispatch p st req = ⟨.error (.jsonRpc (.serverError 4100) "Server error"), st, []⟩ := by
  have hf := fetch_none_eq p st hs
  unfold dispatch
  rw [hf]
  dsimp only
  split
  next heq => exact absurd heq h1
  next heq => exact absurd heq h2
  next => rfl

theorem strip_0x_hex_error_shape (s : String) (e : Error)
    (h : strip_0x_hex s = .error e) : ∃ m, e = .jsonRpc ErrorCode.invalidParams m := by
  unfold strip_0x_hex at h
  split at h
  next => cases h
  next =>
    refine ⟨"Message must start with 0x", ?_⟩
    cases h
    rfl

theorem decode_error_shape (s : String) (e : Error)
    (h : decode_0x_hex s = .error e) : ∃ m, e = .jsonRpc ErrorCode.invalidParams m := by
  unfold decode_0x_hex at h
  cases hst : strip_0x_hex s with
  | error e1 =>
    rw [hst] at h
    dsimp only [Bind.bind, Except.bind] at h
    injection h with h2
    exact h2 ▸ strip_0x_hex_error_shape s e1 hst
  | ok stripped =>
    rw [hst] at h
    dsimp only [Bind.bind, Except.bind] at h
    split at h
    next => cases h
    next =>
      refine ⟨"Invalid hex", ?_⟩
      cases h
      rfl

-- Claim theorems -------------------------------------------------------------

/-- C7: for every supported chain identifier, encoding it to its canonical
`0x`-prefixed hexadecimal string and parsing that string back through the
chain-id parser yields the original chain identifier. -/
theorem chain_id_hex_roundtrip :
    ∀ c : ChainId,
      chain_id_to_hex_str_json c = .str c.toHexStr ∧
      parse_0x_chain_id c.toHexStr = .ok c := by
  intro c
  cases c <;> exact ⟨rfl, rfl⟩

/-- C1: for every inbound request whose method is neither `eth_requestAccounts`
nor `eth_accounts`, if no session exists for the requesting origin under the
active account, dispatch fails with protocol error code 4100 (Unauthorized),
no method handler is invoked (no effects) and no state changes. -/
theorem dispatch_unauthorized_without_session (p : Provider) (st : DbState)
    (req : Request)
    (h1 : req.method ≠ "eth_requestAccounts") (h2 : req.method ≠ "eth_accounts")
    (hs : (fetch_session_for_approved_dapp p st).1 = none) :
    dispatch p st req = ⟨.error (.jsonRpc (.serverError 4100) "Server error"), st, []⟩ :=
  unauthorized_aux p st req h1 h2 hs

/-- C1 witness: a `personal_sign` request on the empty database fails with
code 4100 and no effects. -/
theorem dispatch_unauthorized_without_session_witness :
    dispatch mockProvider emptyDb ⟨"personal_sign", none⟩ =
      ⟨.error (.jsonRpc (.serverError 4100) "Server error"), emptyDb, []⟩ :=
  dispatch_unauthorized_without_session mockProvider emptyDb ⟨"personal_sign", none⟩
    (by decide) (by decide) rfl

/-- C2 counterexample: with no session for the requesting origin, a
`web3_clientVersion` request fails with Unauthorized (4100); the handler (which
would return the fixed identifier string) does not run. -/
theorem misc_methods_unauthorized_counterexample :
    dispatch mockProvider emptyDb ⟨"web3_clientVersion", none⟩ =
      ⟨.error (.jsonRpc (.serverError 4100) "Server error"), emptyDb, []⟩
    ∧ (dispatch mockProvider emptyDb ⟨"web3_clientVersion", none⟩).result ≠
        .ok (.str "SealVault") := by
  refine ⟨rfl, fun h => ?_⟩
  exact Except.noConfusion h

/-- C2 amended: `wallet_addEthereumChain`, `web3_clientVersion` and `web3_sha3`
do require a session like every non-bootstrap method (without one they fail
with 4100); given a session they perform no further session-specific check:
`wallet_addEthereumChain` succeeds as a no-op exactly when the requested chain
id parses as a supported chain and fails with the parse error otherwise, and
`web3_clientVersion` returns the fixed identifier string. -/
theorem misc_methods_require_session
    (p : Provider) (st st' : DbState) (s : LocalDappSession) :
    (∀ req : Request,
      (req.method = "wallet_addEthereumChain" ∨ req.method = "web3_clientVersion" ∨
        req.method = "web3_sha3") →
      (fetch_session_for_approved_dapp p st).1 = none →
      dispatch p st req = ⟨.error (.jsonRpc (.serverError 4100) "Server error"), st, []⟩)
    ∧ (fetch_session_for_approved_dapp p st = (some s, st') →
      (∀ (cstr : String) (rest : List Json) (c : ChainId),
        parse_0x_chain_id cstr = .ok c →
        dispatch p st ⟨"wallet_addEthereumChain",
            some (.arr (.obj [("chainId", .str cstr)] :: rest))⟩ =
          ⟨.ok .null, st', []⟩)
      ∧ (∀ (cstr : String) (rest : List Json) (e : Error),
        parse_0x_chain_id cstr = .error e →
        dispatch p st ⟨"wallet_addEthereumChain",
            some (.arr (.obj [("chainId", .str cstr)] :: rest))⟩ =
          ⟨.error e, st', []⟩)
      ∧ ∀ ps : Option Json,
        dispatch p st ⟨"web3_clientVersion", ps⟩ = ⟨.ok (.str "SealVault"), st', []⟩) := by
  constructor
  · intro req hm hs
    refine unauthorized_aux p st req ?_ ?_ hs
    · rcases hm with h | h | h <;> rw [h] <;> decide
    · rcases hm with h | h | h <;> rw [h] <;> decide
  · intro hσ
    refine ⟨?_, ?_, ?_⟩
    · intro cstr rest c hp
      have hform : dispatch p st ⟨"wallet_addEthereumChain",
          some (.arr (.obj [("chainId", .str cstr)] :: rest))⟩ =
          (match parse_0x_chain_id cstr with
            | .error e => (⟨.error e, st', []⟩ : StepOut)
            | .ok _ => ⟨.ok .null, st', []⟩) := by
        unfold dispatch
        rw [hσ]
        rfl
      rw [hform, hp]
    · intro cstr rest e hp
      have hform : dispatch p st ⟨"wallet_addEthereumChain",
          some (.arr (.obj [("chainId", .str cstr)] :: rest))⟩ =
          (match parse_0x_chain_id cstr with
            | .error e => (⟨.error e, st', []⟩ : StepOut)
            | .ok _ => ⟨.ok .null, st', []⟩) := by
        unfold dispatch
        rw [hσ]
        rfl
      rw [hform, hp]
    · intro ps
      have hform : dispatch p st ⟨"web3_clientVersion", ps⟩ =
          ⟨.ok (.str "SealVault"), st', []⟩ := by
        unfold dispatch
        rw [hσ]
        rfl
      exact hform

/-- C2 amended witness: without a session `web3_sha3` fails with 4100; with a
session `wallet_addEthereumChain` for the supported chain 0x1 is a no-op and
`web3_clientVersion` answers "SealVault". -/
theorem misc_methods_require_session_witness :
    dispatch mockProvider emptyDb ⟨"web3_sha3", none⟩ =
      ⟨.error (.jsonRpc (.serverError 4100) "Server error"), emptyDb, []⟩
    ∧ dispatch mockProvider sessionDb ⟨"wallet_addEthereumChain",
        some (.arr [.obj [("chainId", .str "0x1")]])⟩ = ⟨.ok .null, sessionDb, []⟩
    ∧ dispatch mockProvider sessionDb ⟨"web3_clientVersion", none⟩ =
        ⟨.ok (.str "SealVault"), sessionDb, []⟩ := by
  have h1 := misc_methods_require_session mockProvider emptyDb emptyDb exSession
  have h2 := misc_methods_require_session mockProvider sessionDb sessionDb exSession
  exact ⟨h1.1 ⟨"web3_sha3", none⟩ (by simp) rfl,
    (h2.2 rfl).1 "0x1" [] .ethereumMainnet rfl,
    (h2.2 rfl).2.2 none⟩

/-- C3: for every authorized request whose method is not one of the explicitly
handled methods, dispatch never forwards and fails with protocol code 4200
(Unsupported Method) when the method is outside the fixed proxy allow-list,
and forwards to the remote provider selected by the session's chain id when
the method is in the allow-list. -/
theorem proxy_allowlist_gate (p : Provider) (st st' : DbState)
    (s : LocalDappSession) (req : Request)
    (hσ : fetch_session_for_approved_dapp p st = (some s, st'))
    (hb : req.method ∉ (["eth_requestAccounts", "eth_accounts"] : List String))
    (hh : req.method ∉ (["eth_chainId", "eth_sendTransaction", "personal_sign",
      "wallet_addEthereumChain", "wallet_switchEthereumChain",
      "web3_clientVersion", "web3_sha3"] : List String)) :
    (req.method ∉ PROXIED_RPC_METHODS →
      dispatch p st req = ⟨.error (.jsonRpc (.serverError 4200)
        ("This method is not supported: '" ++ req.method ++ "'")), st', []⟩)
    ∧ (req.method ∈ PROXIED_RPC_METHODS →
      dispatch p st req = ⟨p.proxyFn s.chainId req.method req.params, st',
        [.proxyRequest s.chainId req.method req.params]⟩) := by
  have hd : dispatch p st req = proxy_method p st' req.method req.params s := by
    unfold dispatch
    rw [hσ]
    dsimp only
    split
    next heq => exact absurd (show req.method ∈
      (["eth_requestAccounts", "eth_accounts"] : List String) by rw [heq]; decide) hb
    next heq => exact absurd (show req.method ∈
      (["eth_requestAccounts", "eth_accounts"] : List String) by rw [heq]; decide) hb
    next =>
      unfold dispatch_authorized_methods
      split
      next heq => exact absurd (show req.method ∈ (["eth_chainId", "eth_sendTransaction",
        "personal_sign", "wallet_addEthereumChain", "wallet_switchEthereumChain",
        "web3_clientVersion", "web3_sha3"] : List String) by rw [heq]; decide) hh
      next heq => exact absurd (show req.method ∈ (["eth_chainId", "eth_sendTransaction",
        "personal_sign", "wallet_addEthereumChain", "wallet_switchEthereumChain",
        "web3_clientVersion", "web3_sha3"] : List String) by rw [heq]; decide) hh
      next heq => exact absurd (show req.method ∈ (["eth_chainId", "eth_sendTransaction",
        "personal_sign", "wallet_addEthereumChain", "wallet_switchEthereumChain",
        "web3_clientVersion", "web3_sha3"] : List String) by rw [heq]; decide) hh
      next heq => exact absurd (show req.method ∈ (["eth_chainId", "eth_sendTransaction",
        "personal_sign", "wallet_addEthereumChain", "wallet_switchEthereumChain",
        "web3_clientVersion", "web3_sha3"] : List String) by rw [heq]; decide) hh
      next heq => exact absurd (show req.method ∈ (["eth_chainId", "eth_sendTransaction",
        "personal_sign", "wallet_addEthereumChain", "wallet_switchEthereumChain",
        "web3_clientVersion", "web3_sha3"] : List String) by rw [heq]; decide) hh
      next heq => exact absurd (show req.method ∈ (["eth_chainId", "eth_sendTransaction",
        "personal_sign", "wallet_addEthereumChain", "wallet_switchEthereumChain",
        "web3_clientVersion", "web3_sha3"] : List String) by rw [heq]; decide) hh
      next heq => exact absurd (show req.method ∈ (["eth_chainId", "eth_sendTransaction",
        "personal_sign", "wallet_addEthereumChain", "wallet_switchEthereumChain",
        "web3_clientVersion", "web3_sha3"] : List String) by rw [heq]; decide) hh
      next => rfl
  constructor
  · intro hnp
    rw [hd]
    unfold proxy_method
    rw [if_pos (by simpa [List.elem_iff] using hnp)]
    rfl
  · intro hp
    rw [hd]
    unfold proxy_method
    rw [if_neg (by simp only [not_not]; simpa [List.elem_iff] using hp)]

/-- C3 witness: with a session, `eth_coinbase` (outside the allow-list) fails
with 4200 and emits no remote call, while `eth_getBalance` (in the allow-list)
is forwarded to the provider for the session's chain. -/
theorem proxy_allowlist_gate_witness :
    dispatch mockProvider sessionDb ⟨"eth_coinbase", none⟩ =
      ⟨.error (.jsonRpc (.serverError 4200)
        "This method is not supported: 'eth_coinbase'"), sessionDb, []⟩
    ∧ dispatch mockProvider sessionDb ⟨"eth_getBalance", none⟩ =
      ⟨mockProvider.proxyFn ChainId.polygonPoS "eth_getBalance" none, sessionDb,
        [.proxyRequest ChainId.polygonPoS "eth_getBalance" none]⟩ := by
  have h1 := proxy_allowlist_gate mockProvider sessionDb sessionDb exSession
    ⟨"eth_coinbase", none⟩ rfl (by decide) (by decide)
  have h2 := proxy_allowlist_gate mockProvider sessionDb sessionDb exSession
    ⟨"eth_getBalance", none⟩ rfl (by decide) (by decide)
  exact ⟨h1.1 (by decide), h2.2 (by decide)⟩

/-- C4: for every `eth_sendTransaction` call with parseable transaction
parameters, the transaction forwarded to the chain-specific send path has its
nonce field unset, regardless of any client-supplied nonce. -/
theorem eth_send_transaction_clears_nonce (p : Provider) (st : DbState)
    (ps : Option Json) (s : LocalDappSession) (tx : TransactionRequest)
    (h : paramsOne ps parseTransactionRequest = some tx) :
    eth_send_transaction p st ps s =
      ⟨p.sendTransactionFn (p.signingKeyOf s.addressId) { tx with nonce := none }, st,
        [.sendTransaction (p.signingKeyOf s.addressId) { tx with nonce := none }]⟩
    ∧ (TransactionRequest.nonce { tx with nonce := none } = none)
    ∧ ∀ k t, Effect.sendTransaction k t ∈ (eth_send_transaction p st ps s).effects →
        t.nonce = none := by
  have hred : eth_send_transaction p st ps s =
      ⟨p.sendTransactionFn (p.signingKeyOf s.addressId) { tx with nonce := none }, st,
        [.sendTransaction (p.signingKeyOf s.addressId) { tx with nonce := none }]⟩ := by
    unfold eth_send_transaction
    rw [h]
  refine ⟨hred, rfl, ?_⟩
  intro k t ht
  rw [hred] at ht
  simp only [List.mem_singleton] at ht
  cases ht
  rfl

/-- C4 witness: a transaction submitted with nonce `0x5` is forwarded with no
nonce. -/
theorem eth_send_transaction_clears_nonce_witness :
    eth_send_transaction mockProvider sessionDb
      (some (.arr [.obj [("nonce", .str "0x5"),
        ("to", .str "0x00a329c0648769a73afac7f9381e08fb43dbea72")]])) exSession =
      ⟨mockProvider.sendTransactionFn (mockProvider.signingKeyOf "addr1")
          { toAddr := some 0x00a329c0648769a73afac7f9381e08fb43dbea72, nonce := none },
        sessionDb,
        [.sendTransaction (mockProvider.signingKeyOf "addr1")
          { toAddr := some 0x00a329c0648769a73afac7f9381e08fb43dbea72, nonce := none }]⟩ :=
  (eth_send_transaction_clears_nonce mockProvider sessionDb
    (some (.arr [.obj [("nonce", .str "0x5"),
      ("to", .str "0x00a329c0648769a73afac7f9381e08fb43dbea72")]])) exSession
    { toAddr := some 0x00a329c0648769a73afac7f9381e08fb43dbea72, nonce := some 5 }
    rfl).1

/-- C5: for every `personal_sign` request with a valid session, if the address
parameter does not equal the session's bound address the call fails with an
invalid-params protocol error and no signature is produced; when it matches
(and the message decodes as `0x`-hex) the message is signed and the signature
returned. -/
theorem personal_sign_address_check (p : Provider) (st : DbState)
    (s : LocalDappSession) (msg addrStr : String) (pw : Option String)
    (reqA argA : Nat)
    (hdb : parseAddressHex s.address = some reqA)
    (harg : parseAddressHex addrStr = some argA) :
    (argA ≠ reqA →
      ∃ m, personal_sign p st (mkPersonalSignParams msg addrStr pw) s =
        ⟨.error (.jsonRpc .invalidParams m), st, []⟩)
    ∧ (argA = reqA → ∀ bs, decode_0x_hex msg = .ok bs →
      personal_sign p st (mkPersonalSignParams msg addrStr pw) s =
        ⟨.ok (.str (p.personalSignFn (p.signingKeyOf s.addressId) bs)), st,
          [.signMessage (p.signingKeyOf s.addressId) bs]⟩) := by
  constructor
  · intro hne
    cases hdec : decode_0x_hex msg with
    | error e =>
      obtain ⟨m, hm⟩ := decode_error_shape msg e hdec
      refine ⟨m, ?_⟩
      unfold personal_sign
      dsimp only [mkPersonalSignParams, paramsList, seqNext, asString,
        List.cons_append, List.nil_append]
      rw [hdec, hm]
    | ok bs =>
      refine ⟨"Invalid address", ?_⟩
      unfold personal_sign
      dsimp only [mkPersonalSignParams, paramsList, seqNext, asString, Option.bind,
        List.cons_append, List.nil_append]
      rw [hdec, hdb, harg]
      dsimp only
      rw [if_pos hne]
      rfl
  · intro heq bs hdec
    cases pw with
    | none =>
      unfold personal_sign
      dsimp only [mkPersonalSignParams, paramsList, seqNext, seqOptNext, asString,
        Option.bind, List.cons_append, List.nil_append]
      rw [hdec, hdb, harg]
      dsimp only
      rw [if_neg (by simp [heq])]
    | some w =>
      unfold personal_sign
      dsimp only [mkPersonalSignParams, paramsList, seqNext, seqOptNext, asString,
        Option.bind, List.cons_append, List.nil_append]
      rw [hdec, hdb, harg]
      dsimp only
      rw [if_neg (by simp [heq])]

/-- C5 witness: with the session's address, signing "hello" returns the mock
signature; with a different (valid) address, the call fails with invalid
params and no signing effect. -/
theorem personal_sign_address_check_witness :
    personal_sign mockProvider sessionDb
      (mkPersonalSignParams "0x68656c6c6f"
        "0x00a329c0648769a73afac7f9381e08fb43dbea72" none) exSession =
      ⟨.ok (.str (mockProvider.personalSignFn (mockProvider.signingKeyOf "addr1")
          [0x68, 0x65, 0x6c, 0x6c, 0x6f])), sessionDb,
        [.signMessage (mockProvider.signingKeyOf "addr1") [0x68, 0x65, 0x6c, 0x6c, 0x6f]]⟩
    ∧ ∃ m, personal_sign mockProvider sessionDb
      (mkPersonalSignParams "0x68656c6c6f"
        "0x00a329c0648769a73afac7f9381e08fb43dbea71" none) exSession =
      ⟨.error (.jsonRpc .invalidParams m), sessionDb, []⟩ := by
  have h1 := personal_sign_address_check mockProvider sessionDb exSession
    "0x68656c6c6f" "0x00a329c0648769a73afac7f9381e08fb43dbea72" none
    0x00a329c0648769a73afac7f9381e08fb43dbea72
    0x00a329c0648769a73afac7f9381e08fb43dbea72 rfl rfl
  have h2 := personal_sign_address_check mockProvider sessionDb exSession
    "0x68656c6c6f" "0x00a329c0648769a73afac7f9381e08fb43dbea71" none
    0x00a329c0648769a73afac7f9381e08fb43dbea72
    0x00a329c0648769a73afac7f9381e08fb43dbea71 rfl rfl
  exact ⟨h1.2 rfl [0x68, 0x65, 0x6c, 0x6c, 0x6f] rfl, h2.1 (by decide)⟩

/-- C6: every successful `wallet_switchEthereumChain` request emits exactly
two notifications, `chainChanged` strictly before `networkChanged`. -/
theorem switch_chain_notification_order (p : Provider) (st st' : DbState)
    (s : LocalDappSession) (req : Request) (v : Json)
    (hm : req.method = "wallet_switchEthereumChain")
    (hσ : fetch_session_for_approved_dapp p st = (some s, st'))
    (hok : (dispatch p st req).result = .ok v) :
    ∃ c : ChainId,
      (dispatch p st req).effects =
        [ .notify .chainChanged (chain_id_to_hex_str_json c),
          .notify .networkChanged (.str c.network_version) ] := by
  obtain ⟨m, ps⟩ := req
  dsimp only at hm
  subst hm
  have hd : dispatch p st ⟨"wallet_switchEthereumChain", ps⟩ =
      wallet_switch_ethereum_chain p st' ps s := by
    unfold dispatch
    rw [hσ]
    rfl
  rw [hd] at hok ⊢
  unfold wallet_switch_ethereum_chain at hok ⊢
  split at hok
  next => exact absurd hok (by simp)
  next =>
    split at hok
    next => exact absurd hok (by simp)
    next newChainId heq =>
      split at hok
      next => exact absurd hok (by simp)
      next addrRec hfind =>
        refine ⟨newChainId, ?_⟩
        cases hfc : fetch_or_create_for_eth_chain st' addrRec newChainId with
        | mk nr s1 => rfl

/-- C6 witness: switching the example session to chain 0x1 notifies
`chainChanged` then `networkChanged` for Ethereum mainnet. -/
theorem switch_chain_notification_order_witness :
    ∃ c : ChainId,
      (dispatch mockProvider sessionDb ⟨"wallet_switchEthereumChain",
        some (.arr [.obj [("chainId", .str "0x1")]])⟩).effects =
        [ .notify .chainChanged (chain_id_to_hex_str_json c),
          .notify .networkChanged (.str c.network_version) ] :=
  switch_chain_notification_order mockProvider sessionDb sessionDb exSession
    ⟨"wallet_switchEthereumChain", some (.arr [.obj [("chainId", .str "0x1")]])⟩
    .null rfl rfl rfl

/-- C8: an `eth_requestAccounts` request with no existing session whose
approval is declined fails with protocol code 4001 (User Rejected) and mutates
no persistent state: no dapp record, no address and no session is created. -/
theorem decline_no_state_mutation (p : Provider) (st : DbState) (req : Request)
    (hm : req.method = "eth_requestAccounts")
    (hs : (fetch_session_for_approved_dapp p st).1 = none)
    (hd : p.approve_dapp ⟨st.activeAccountId, p.dappIdentifierOf p.url, p.favicon⟩ = false) :
    dispatch p st req =
      ⟨.error (.jsonRpc (.serverError 4001) "Server error"), st,
        [.fetchFavicon p.url,
         .approveDappRequest ⟨st.activeAccountId, p.dappIdentifierOf p.url, p.favicon⟩]⟩ := by
  have hf := fetch_none_eq p st hs
  unfold dispatch
  rw [hf, hm]
  unfold eth_request_accounts request_add_new_dapp
  dsimp only
  rw [hd]
  rfl

/-- C8 witness: on the empty database with the declining mock approver, the
call fails with 4001 and the database is unchanged. -/
theorem decline_no_state_mutation_witness :
    dispatch mockProvider emptyDb ⟨"eth_requestAccounts", none⟩ =
      ⟨.error (.jsonRpc (.serverError 4001) "Server error"), emptyDb,
        [.fetchFavicon "https://example.com",
         .approveDappRequest ⟨"acct1", "https://example.com", none⟩]⟩ :=
  decline_no_state_mutation mockProvider emptyDb ⟨"eth_requestAccounts", none⟩
    rfl rfl rfl

/-- C9: the in-memory keychain never overwrites stored key material:
`put_local_unlocked` with a name already present returns an error and leaves
the stored map unchanged, and with an absent name adds exactly that entry. -/
theorem put_local_unlocked_no_overwrite (d : Keychain.Data)
    (key : Keychain.KeyEncryptionKey) :
    ((Keychain.lookupName d key.name).isSome = true →
      Keychain.put_local_unlocked d key =
        (.error (.fatal "A keychain item by this name already exists"), d))
    ∧ (Keychain.lookupName d key.name = none →
      (Keychain.put_local_unlocked d key).1 = .ok ()
      ∧ Keychain.lookupName (Keychain.put_local_unlocked d key).2 key.name =
          some key.keyMaterial
      ∧ ∀ n, n ≠ key.name →
          Keychain.lookupName (Keychain.put_local_unlocked d key).2 n =
            Keychain.lookupName d n) := by
  cases hl : Keychain.lookupName d key.name with
  | some km =>
    constructor
    · intro _
      unfold Keychain.put_local_unlocked
      rw [hl]
    · intro h
      cases h
  | none =>
    have hput : Keychain.put_local_unlocked d key =
        (.ok (), d ++ [(key.name, key.keyMaterial)]) := by
      unfold Keychain.put_local_unlocked
      rw [hl]
    constructor
    · intro h
      simp at h
    · intro _
      rw [hput]
      refine ⟨rfl, ?_, ?_⟩
      · rw [Keychain.lookupName_append, hl, Keychain.lookupName_singleton_self]
        rfl
      · intro n hn
        rw [Keychain.lookupName_append, Keychain.lookupName_singleton_ne _ _ _ hn,
          Option.or_none]

/-- C9 witness: on the concrete keychain `[("a", [1])]`, putting `"a"` again
fails and leaves the map unchanged, while putting `"b"` adds exactly that
entry. -/
theorem put_local_unlocked_no_overwrite_witness :
    Keychain.put_local_unlocked [("a", ⟨[1]⟩)] ⟨"a", ⟨[2]⟩⟩ =
      (.error (.fatal "A keychain item by this name already exists"), [("a", ⟨[1]⟩)])
    ∧ (Keychain.put_local_unlocked [("a", ⟨[1]⟩)] ⟨"b", ⟨[2]⟩⟩).1 = .ok ()
    ∧ Keychain.lookupName (Keychain.put_local_unlocked [("a", ⟨[1]⟩)] ⟨"b", ⟨[2]⟩⟩).2 "b" =
        some ⟨[2]⟩
    ∧ Keychain.lookupName (Keychain.put_local_unlocked [("a", ⟨[1]⟩)] ⟨"b", ⟨[2]⟩⟩).2 "a" =
        Keychain.lookupName [("a", ⟨[1]⟩)] "a" := by
  have h1 := put_local_unlocked_no_overwrite [("a", ⟨[1]⟩)] ⟨"a", ⟨[2]⟩⟩
  have h2 := put_local_unlocked_no_overwrite [("a", ⟨[1]⟩)] ⟨"b", ⟨[2]⟩⟩
  exact ⟨h1.1 rfl, (h2.2 rfl).1, (h2.2 rfl).2.1, (h2.2 rfl).2.2 "a" (by decide)⟩

/-- C10: `soft_delete` on a present name whose renamed name is free succeeds,
after which `get` on the name fails and the original material is stored under
the renamed name; on an absent name it fails and leaves the keychain
unchanged. -/
theorem soft_delete_moves_key (d : Keychain.Data) (name : String)
    (km : Keychain.KeyMaterial) :
    (Keychain.lookupName d name = some km →
      Keychain.lookupName d (Keychain.soft_delete_rename name) = none →
      (Keychain.soft_delete d name).1 = .ok ()
      ∧ Keychain.get (Keychain.soft_delete d name).2 name =
          .error (.fatal ("Key '" ++ name ++ "' not found"))
      ∧ Keychain.lookupName (Keychain.soft_delete d name).2
          (Keychain.soft_delete_rename name) = some km)
    ∧ (Keychain.lookupName d name = none →
      Keychain.soft_delete d name =
        (.error (.fatal ("Key '" ++ name ++ "' not found")), d)) := by
  constructor
  · intro h1 h2
    have hget : Keychain.get d name = .ok ⟨name, km⟩ := by
      unfold Keychain.get
      rw [h1]
    have hput : Keychain.put_local_unlocked d ⟨Keychain.soft_delete_rename name, km⟩ =
        (.ok (), d ++ [(Keychain.soft_delete_rename name, km)]) := by
      unfold Keychain.put_local_unlocked
      rw [h2]
    have hsd : Keychain.soft_delete d name =
        (.ok (), Keychain.removeName (d ++ [(Keychain.soft_delete_rename name, km)]) name) := by
      unfold Keychain.soft_delete
      rw [hget]
      simp only [hput]
    refine ⟨by rw [hsd], ?_, ?_⟩
    · unfold Keychain.get
      rw [hsd]
      simp only [Keychain.lookupName_removeName_self]
    · rw [hsd]
      simp only
      rw [Keychain.lookupName_removeName_ne _ _ _ (Keychain.soft_delete_rename_ne name),
        Keychain.lookupName_append, h2, Keychain.lookupName_singleton_self]
      rfl
  · intro h
    unfold Keychain.soft_delete Keychain.get
    rw [h]

/-- C10 witness: on the concrete keychain `[("a", [1])]`, soft-deleting `"a"`
succeeds and moves the material to `"deleted-a"`, while soft-deleting the
absent `"b"` fails and changes nothing. -/
theorem soft_delete_moves_key_witness :
    (Keychain.soft_delete [("a", ⟨[1]⟩)] "a").1 = .ok ()
    ∧ Keychain.get (Keychain.soft_delete [("a", ⟨[1]⟩)] "a").2 "a" =
        .error (.fatal "Key 'a' not found")
    ∧ Keychain.lookupName (Keychain.soft_delete [("a", ⟨[1]⟩)] "a").2 "deleted-a" =
        some ⟨[1]⟩
    ∧ Keychain.soft_delete [("a", ⟨[1]⟩)] "b" =
        (.error (.fatal "Key 'b' not found"), [("a", ⟨[1]⟩)]) := by
  have h1 := soft_delete_moves_key [("a", ⟨[1]⟩)] "a" ⟨[1]⟩
  have h2 := soft_delete_moves_key [("a", ⟨[1]⟩)] "b" ⟨[1]⟩
  exact ⟨(h1.1 rfl rfl).1, (h1.1 rfl rfl).2.1, (h1.1 rfl rfl).2.2, h2.2 rfl⟩

end SealVault
